import Mathlib

/-
Verification of the koizuka/scraper library: a shallow embedding of the
parts of the source that the specification claims talk about, followed by
theorems settling each claim.

Conventions used throughout:
  * Go strings are modelled as Lean `String` / `List Char`.
  * Go `int` is modelled as `Int` (no claim exercises 64-bit overflow).
  * fallible Go functions are modelled with `Option` / `Except`.
  * external libraries (goquery, chromedp, net/http, regexp, the file
    system) are modelled by their documented contracts: deterministic
    stdlib functions are given faithful models, and I/O is abstracted
    into explicit environment records passed to the embedded functions.
-/

/- ===================================================================
   Section 1: the extractor-CSS helper (chrome_unmarshal.go)
     parseNthOfTypeParam / resolveNthOfType
   =================================================================== -/

/-- Model of Go strconv.Atoi on a run of decimal digits.  The regex in
parseNthOfTypeParam only ever hands Atoi nonempty digit runs; we model the
exact value (the Go code would overflow above 2^63-1, a range no claim
exercises). -/
def atoiDigits (ds : List Char) : Int :=
  ds.foldl (fun n c => n * 10 + ((c.toNat : Int) - 48)) 0

/-- The parameter alternation of the Go regex
`(.*):nth-of-type\((odd|even|(?:(\d+)n)?\+?(\d+)?)\)$`:
`odd`, `even`, or the `(?:(\d+)n)?\+?(\d+)?` form with its two capture
groups kept as raw digit runs (`none` = group did not participate). -/
inductive GoNthParam where
  | odd : GoNthParam
  | even : GoNthParam
  | anb : Option (List Char) → Option (List Char) → GoNthParam
deriving DecidableEq

/-- Greedy scan of a maximal run of decimal digits (the `\d+` pieces). -/
def scanDigits : List Char → List Char × List Char
  | [] => ([], [])
  | c :: rest =>
    if c.isDigit then
      let (ds, r) := scanDigits rest
      (c :: ds, r)
    else ([], c :: rest)

/-- After the optional `(?:(\d+)n)` group: the regex still has to match
`\+?(\d+)?` and then be at the closing parenthesis (we are handed the
characters strictly between the parentheses, so "at the end" here). -/
def nthParamTail (m : List Char) (g3 : Option (List Char)) : Option GoNthParam :=
  let r := match m with
           | c :: rest => if c = '+' then rest else c :: rest
           | [] => []
  let p := scanDigits r
  if p.2 = [] then
    some (GoNthParam.anb g3 (if p.1 = [] then none else some p.1))
  else none

/-- Matching of the full parameter alternation against the characters
between the parentheses.  The `(?:(\d+)n)?` group participates exactly
when the string starts with digits immediately followed by a letter n;
otherwise no backtracking into the group can succeed (a string starting
with a digit fails `\+?(\d+)?$` unless it is all digits), so the
deterministic commit below is faithful to the regex. -/
def nthParamParse (m : List Char) : Option GoNthParam :=
  if m = "odd".data then some GoNthParam.odd
  else if m = "even".data then some GoNthParam.even
  else
    match scanDigits m with
    | (d1 :: ds, c :: r2) =>
      if c = 'n' then nthParamTail r2 (some (d1 :: ds)) else nthParamTail m none
    | _ => nthParamTail m none

/-- The literal `:nth-of-type(` (13 characters). -/
def nthOfTypeLit : List Char := (":nth-of-type(").data

/-- One anchored attempt of the regex at the current position: the entire
remaining input must be `:nth-of-type(` ++ param ++ `)` (the `\)$` of the
pattern forces the closing parenthesis to be the final character, and no
parameter character can be a parenthesis). -/
def nthMatchAt (cs : List Char) : Option GoNthParam :=
  if cs.take 13 = nthOfTypeLit then
    match (cs.drop 13).getLast? with
    | some c =>
        if c = ')' then nthParamParse (cs.drop 13).dropLast else none
    | none => none
  else none

/-- Leftmost-first search of `(.*):nth-of-type\(param\)$`:
the greedy `(.*)` selects the deepest position at which the anchored
suffix matches, and — because `.` does not match a newline — the captured
prefix cannot extend across a newline: characters before the last newline
preceding the match are outside the match and dropped (the Bool flags
that a newline was crossed). -/
def nthGreedy : List Char → Option (Bool × List Char × GoNthParam)
  | [] => none
  | c :: rest =>
    match nthGreedy rest with
    | some (closed, p, g) =>
        if closed then some (true, p, g)
        else if c = '\n' then some (true, p, g)
        else some (false, c :: p, g)
    | none =>
        match nthMatchAt (c :: rest) with
        | some g => some (false, [], g)
        | none => none

/-- Embedding of Go `parseNthOfTypeParam` (chrome_unmarshal.go): apply the
regex, return the captured prefix and the numbers a and b, with `odd`
and `even` overriding them as in the source. -/
def parseNthOfTypeParam (cssSelector : String) : String × Int × Int :=
  match nthGreedy cssSelector.data with
  | none => (cssSelector, 0, 0)
  | some (_, p, g) =>
    match g with
    | GoNthParam.odd => (String.mk p, 2, 1)
    | GoNthParam.even => (String.mk p, 2, 0)
    | GoNthParam.anb g3 g4 =>
      (String.mk p,
       (match g3 with | some ds => atoiDigits ds | none => 0),
       (match g4 with | some ds => atoiDigits ds | none => 0))

/-- Model of Go strings.Split with a one-character separator: every
occurrence splits, empty pieces are kept, and the result is nonempty. -/
def goSplitChar (sep : Char) : List Char → List (List Char)
  | [] => [[]]
  | c :: rest =>
    let r := goSplitChar sep rest
    if c = sep then [] :: r
    else
      match r with
      | h :: t => (c :: h) :: t
      | [] => [[c]]

/-- Embedding of Go `resolveNthOfType` (chrome_unmarshal.go): split on
single spaces, rewrite the last segment (note that the source returns
only the rewritten last segment - the earlier segments are not glued
back on). -/
def resolveNthOfType (cssSelector : String) (n : Int) : String :=
  let selectors := goSplitChar ' ' cssSelector.data
  let last : String := String.mk ((selectors.getLast?).getD [])
  let r := parseNthOfTypeParam last
  let pre := r.1
  let a := r.2.1
  let b := r.2.2
  let x : Int :=
    if a = 0 ∧ b = 0 then n + 1
    else if a = 0 ∨ a = 1 then b
    else n * a + (if b < 1 then a else b)
  pre ++ ":nth-of-type(" ++ toString x ++ ")"

example : resolveNthOfType "div:nth-of-type(odd)" 1 = "div:nth-of-type(3)" := by decide
example : resolveNthOfType "div:nth-of-type(even)" 1 = "div:nth-of-type(4)" := by decide
example : resolveNthOfType "div:nth-of-type(even)" 0 = "div:nth-of-type(2)" := by decide
example : resolveNthOfType "div:nth-of-type(2n)" 1 = "div:nth-of-type(4)" := by decide
example : resolveNthOfType "div:nth-of-type(2n+1)" 1 = "div:nth-of-type(3)" := by decide
example : resolveNthOfType "div:nth-of-type(2)" 1 = "div:nth-of-type(2)" := by decide
example : resolveNthOfType "div" 1 = "div:nth-of-type(2)" := by decide

/- Lemmas about the nth-of-type embedding. -/

theorem nthMatchAt_none_of_head_ne (c : Char) (rest : List Char) (hc : c ≠ ':') :
    nthMatchAt (c :: rest) = none := by
  have h : (c :: rest).take 13 ≠ nthOfTypeLit := by
    intro h
    have : c = ':' := by
      have := congrArg List.head? h
      simpa [nthOfTypeLit] using this
    exact hc this
  unfold nthMatchAt
  rw [if_neg h]

theorem nthGreedy_none_of_no_colon (cs : List Char) (h : ':' ∉ cs) :
    nthGreedy cs = none := by
  induction cs with
  | nil => rfl
  | cons c rest ih =>
    have hc : c ≠ ':' := by
      intro hc; exact h (by simp [hc])
    have hr : ':' ∉ rest := fun hm => h (List.mem_cons_of_mem c hm)
    unfold nthGreedy
    rw [ih hr, nthMatchAt_none_of_head_ne c rest hc]

theorem nthGreedy_prepend (xs ys p : List Char) (g : GoNthParam)
    (h : nthGreedy ys = some (false, p, g)) (hnl : '\n' ∉ xs) :
    nthGreedy (xs ++ ys) = some (false, xs ++ p, g) := by
  induction xs with
  | nil => simpa using h
  | cons c xs ih =>
    have hc : c ≠ '\n' := by intro hc; exact hnl (by simp [hc])
    have hxs : '\n' ∉ xs := fun hm => hnl (List.mem_cons_of_mem c hm)
    rw [List.cons_append]
    simp only [nthGreedy]
    rw [ih hxs]
    simp [hc]

theorem scanDigits_all (ds : List Char) (h : ∀ c ∈ ds, c.isDigit = true) :
    scanDigits ds = (ds, []) := by
  induction ds with
  | nil => rfl
  | cons c rest ih =>
    have hc : c.isDigit = true := h c (by simp)
    have hr := ih (fun x hx => h x (List.mem_cons_of_mem c hx))
    unfold scanDigits
    rw [hr]
    simp [hc]

theorem scanDigits_append (ds : List Char) (h : ∀ c ∈ ds, c.isDigit = true)
    (c : Char) (hc : c.isDigit = false) (r : List Char) :
    scanDigits (ds ++ c :: r) = (ds, c :: r) := by
  induction ds with
  | nil => unfold scanDigits; simp [hc]
  | cons d rest ih =>
    have hd : d.isDigit = true := h d (by simp)
    have hr := ih (fun x hx => h x (List.mem_cons_of_mem d hx))
    rw [List.cons_append]
    simp only [scanDigits]
    rw [hr]
    simp [hd]

theorem head_isDigit_ne_odd (m : List Char) (d : Char) (rest : List Char)
    (hm : m = d :: rest) (hd : d.isDigit = true) :
    m ≠ "odd".data ∧ m ≠ "even".data := by
  subst hm
  constructor
  · intro h
    have hh : d = 'o' := by
      have := congrArg List.head? h
      simpa using this
    rw [hh] at hd
    exact absurd hd (by decide)
  · intro h
    have hh : d = 'e' := by
      have := congrArg List.head? h
      simpa using this
    rw [hh] at hd
    exact absurd hd (by decide)

theorem nthParamTail_digits (bs : List Char) (g3 : Option (List Char))
    (hdb : ∀ c ∈ bs, c.isDigit = true) :
    nthParamTail ('+' :: bs) g3
      = some (GoNthParam.anb g3 (if bs = [] then none else some bs)) := by
  unfold nthParamTail
  simp [scanDigits_all bs hdb]

theorem nthParamParse_anb (as bs : List Char) (has : as ≠ [])
    (hda : ∀ c ∈ as, c.isDigit = true) (hdb : ∀ c ∈ bs, c.isDigit = true) :
    nthParamParse (as ++ 'n' :: '+' :: bs)
      = some (GoNthParam.anb (some as) (if bs = [] then none else some bs)) := by
  obtain ⟨a0, as1, rfl⟩ : ∃ a0 as1, as = a0 :: as1 := by
    cases as with
    | nil => exact absurd rfl has
    | cons a0 as1 => exact ⟨a0, as1, rfl⟩
  have hd0 : a0.isDigit = true := hda a0 (by simp)
  obtain ⟨hne1, hne2⟩ :=
    head_isDigit_ne_odd ((a0 :: as1) ++ 'n' :: '+' :: bs) a0 (as1 ++ 'n' :: '+' :: bs)
      (by simp) hd0
  unfold nthParamParse
  rw [if_neg hne1, if_neg hne2,
      scanDigits_append (a0 :: as1) hda 'n' (by decide) ('+' :: bs)]
  simp [nthParamTail_digits bs (some (a0 :: as1)) hdb]

theorem nthParamParse_an (as : List Char) (has : as ≠ [])
    (hda : ∀ c ∈ as, c.isDigit = true) :
    nthParamParse (as ++ ['n']) = some (GoNthParam.anb (some as) none) := by
  obtain ⟨a0, as1, rfl⟩ : ∃ a0 as1, as = a0 :: as1 := by
    cases as with
    | nil => exact absurd rfl has
    | cons a0 as1 => exact ⟨a0, as1, rfl⟩
  have hd0 : a0.isDigit = true := hda a0 (by simp)
  obtain ⟨hne1, hne2⟩ :=
    head_isDigit_ne_odd ((a0 :: as1) ++ ['n']) a0 (as1 ++ ['n']) (by simp) hd0
  unfold nthParamParse
  rw [if_neg hne1, if_neg hne2,
      scanDigits_append (a0 :: as1) hda 'n' (by decide) []]
  simp [nthParamTail, scanDigits]

theorem nthParamParse_fixed (bs : List Char) (hbs : bs ≠ [])
    (hdb : ∀ c ∈ bs, c.isDigit = true) :
    nthParamParse bs = some (GoNthParam.anb none (some bs)) := by
  obtain ⟨b0, bs1, rfl⟩ : ∃ b0 bs1, bs = b0 :: bs1 := by
    cases bs with
    | nil => exact absurd rfl hbs
    | cons b0 bs1 => exact ⟨b0, bs1, rfl⟩
  have hd0 : b0.isDigit = true := hdb b0 (by simp)
  obtain ⟨hne1, hne2⟩ := head_isDigit_ne_odd (b0 :: bs1) b0 bs1 rfl hd0
  unfold nthParamParse
  rw [if_neg hne1, if_neg hne2, scanDigits_all (b0 :: bs1) hdb]
  have hplus : b0 ≠ '+' := by
    intro h; rw [h] at hd0; exact absurd hd0 (by decide)
  unfold nthParamTail
  simp [hplus, scanDigits_all (b0 :: bs1) hdb]

theorem nthGreedy_pseudo (mid : List Char) (g : GoNthParam)
    (hp : nthParamParse mid = some g) (hc : ':' ∉ mid) :
    nthGreedy (nthOfTypeLit ++ (mid ++ [')'])) = some (false, [], g) := by
  have hnone : nthGreedy (("nth-of-type(").data ++ (mid ++ [')'])) = none := by
    apply nthGreedy_none_of_no_colon
    intro hmem
    rcases List.mem_append.mp hmem with h1 | h2
    · exact absurd h1 (by decide)
    · rcases List.mem_append.mp h2 with h3 | h4
      · exact hc h3
      · exact absurd h4 (by decide)
  have hmatch : nthMatchAt (':' :: (("nth-of-type(").data ++ (mid ++ [')'])))
      = some g := by
    have hfull : ':' :: (("nth-of-type(").data ++ (mid ++ [')']))
        = nthOfTypeLit ++ (mid ++ [')']) := by rfl
    rw [hfull]
    unfold nthMatchAt
    have ht : (nthOfTypeLit ++ (mid ++ [')'])).take 13 = nthOfTypeLit := by
      have hlen : nthOfTypeLit.length = 13 := by rfl
      rw [← hlen, List.take_left]
    have hd : (nthOfTypeLit ++ (mid ++ [')'])).drop 13 = mid ++ [')'] := by
      have hlen : nthOfTypeLit.length = 13 := by rfl
      rw [← hlen, List.drop_left]
    rw [ht, hd, if_pos rfl]
    simp [List.getLast?_concat, List.dropLast_concat, hp]
  have hsplit : nthOfTypeLit ++ (mid ++ [')'])
      = ':' :: (("nth-of-type(").data ++ (mid ++ [')'])) := by rfl
  rw [hsplit]
  generalize hT : ("nth-of-type(").data ++ (mid ++ [')']) = T at hnone hmatch ⊢
  simp only [nthGreedy]
  rw [hnone, hmatch]

theorem goSplitChar_no_sep (sep : Char) (cs : List Char) (h : sep ∉ cs) :
    goSplitChar sep cs = [cs] := by
  induction cs with
  | nil => rfl
  | cons c rest ih =>
    have hc : c ≠ sep := by intro hc; exact h (by simp [hc])
    have hr := ih (fun hm => h (List.mem_cons_of_mem c hm))
    simp only [goSplitChar]
    rw [hr]
    simp [hc]

/-- Evaluation lemma for resolveNthOfType on a selector with no space:
the whole selector is the last segment, and the result is determined by
parseNthOfTypeParam exactly as in the Go source. -/
theorem resolveNthOfType_eval (sel : String) (pre : String) (a b : Int)
    (h1 : ' ' ∉ sel.data) (h2 : parseNthOfTypeParam sel = (pre, a, b)) (n : Int) :
    resolveNthOfType sel n = pre ++ ":nth-of-type(" ++ toString
      (if a = 0 ∧ b = 0 then n + 1
       else if a = 0 ∨ a = 1 then b
       else n * a + (if b < 1 then a else b)) ++ ")" := by
  unfold resolveNthOfType
  rw [goSplitChar_no_sep ' ' sel.data h1]
  have hlast : String.mk ((([sel.data] : List (List Char)).getLast?).getD []) = sel := rfl
  dsimp only
  rw [hlast, h2]

/-- The two numbers the embedded parseNthOfTypeParam derives from a matched
parameter (a and b, with odd and even overriding as in the source). -/
def paramA : GoNthParam → Int
  | GoNthParam.odd => 2
  | GoNthParam.even => 2
  | GoNthParam.anb g3 _ => match g3 with | some ds => atoiDigits ds | none => 0

def paramB : GoNthParam → Int
  | GoNthParam.odd => 1
  | GoNthParam.even => 0
  | GoNthParam.anb _ g4 => match g4 with | some ds => atoiDigits ds | none => 0

/-- parseNthOfTypeParam on a one-segment selector `pre` ++ pseudo where the
prefix has no colon or newline and the parameter parses. -/
theorem parseNthOfTypeParam_split (pre mid : List Char) (g : GoNthParam)
    (hpre1 : ':' ∉ pre) (hpre2 : '\n' ∉ pre)
    (hp : nthParamParse mid = some g) (hcol : ':' ∉ mid) :
    parseNthOfTypeParam (String.mk (pre ++ (nthOfTypeLit ++ (mid ++ [')']))))
      = ((String.mk pre : String), paramA g, paramB g) := by
  have hg : nthGreedy (pre ++ (nthOfTypeLit ++ (mid ++ [')'])))
      = some (false, pre ++ [], g) :=
    nthGreedy_prepend pre (nthOfTypeLit ++ (mid ++ [')'])) [] g
      (nthGreedy_pseudo mid g hp hcol) hpre2
  unfold parseNthOfTypeParam
  have hdata : (String.mk (pre ++ (nthOfTypeLit ++ (mid ++ [')'])))).data
      = pre ++ (nthOfTypeLit ++ (mid ++ [')'])) := rfl
  rw [hdata, hg]
  cases g with
  | odd => simp [paramA, paramB]
  | even => simp [paramA, paramB]
  | anb g3 g4 => simp [paramA, paramB]

/-- The index computation of resolveNthOfType (the x variable of the Go
source), factored out for reuse in lemmas. -/
def xOf (a b n : Int) : Int :=
  if a = 0 ∧ b = 0 then n + 1
  else if a = 0 ∨ a = 1 then b
  else n * a + (if b < 1 then a else b)

theorem resolve_pseudo_eval (pre mid : List Char) (g : GoNthParam)
    (hpre : ∀ c ∈ pre, c ≠ ':' ∧ c ≠ ' ' ∧ c ≠ '\n')
    (hp : nthParamParse mid = some g)
    (hcol : ':' ∉ mid) (hsp : ' ' ∉ mid) (n : Int) :
    resolveNthOfType (String.mk (pre ++ (nthOfTypeLit ++ (mid ++ [')'])))) n
      = String.mk pre ++ ":nth-of-type(" ++ toString (xOf (paramA g) (paramB g) n) ++ ")" := by
  have hparse := parseNthOfTypeParam_split pre mid g
    (fun hm => ((hpre ':' hm).1 rfl).elim)
    (fun hm => ((hpre '\n' hm).2.2 rfl).elim) hp hcol
  have hspace : ' ' ∉ (String.mk (pre ++ (nthOfTypeLit ++ (mid ++ [')'])))).data := by
    intro hm
    rcases List.mem_append.mp hm with h1 | h2
    · exact (hpre ' ' h1).2.1 rfl
    · rcases List.mem_append.mp h2 with h3 | h4
      · exact absurd h3 (by decide)
      · rcases List.mem_append.mp h4 with h5 | h6
        · exact hsp h5
        · exact absurd h6 (by decide)
  rw [resolveNthOfType_eval _ _ _ _ hspace hparse n]
  rfl

theorem resolve_no_pseudo_eval (pre : List Char)
    (hpre : ∀ c ∈ pre, c ≠ ':' ∧ c ≠ ' ' ∧ c ≠ '\n') (n : Int) :
    resolveNthOfType (String.mk pre) n
      = String.mk pre ++ ":nth-of-type(" ++ toString (n + 1) ++ ")" := by
  have hg : nthGreedy (String.mk pre).data = none :=
    nthGreedy_none_of_no_colon pre (fun hm => ((hpre ':' hm).1 rfl).elim)
  have hparse : parseNthOfTypeParam (String.mk pre) = (String.mk pre, 0, 0) := by
    unfold parseNthOfTypeParam
    rw [hg]
  have hspace : ' ' ∉ (String.mk pre).data :=
    fun hm => ((hpre ' ' hm).2.1 rfl).elim
  rw [resolveNthOfType_eval _ _ _ _ hspace hparse n]
  norm_num

theorem digit_ne (c : Char) (h : c.isDigit = true) (d : Char) (hd : d.isDigit = false) :
    c ≠ d := by
  intro he
  rw [he, hd] at h
  exact Bool.false_ne_true h


theorem not_colon_mem_n_plus (bs : List Char) (hdb : ∀ c ∈ bs, c.isDigit = true)
    (hm : ':' ∈ 'n' :: '+' :: bs) : False := by
  have h : ':' = 'n' ∨ ':' = '+' ∨ ':' ∈ bs := by simpa using hm
  rcases h with h | h | h
  · exact absurd h (by decide)
  · exact absurd h (by decide)
  · exact digit_ne ':' (hdb ':' h) ':' (by decide) rfl

theorem not_space_mem_n_plus (bs : List Char) (hdb : ∀ c ∈ bs, c.isDigit = true)
    (hm : ' ' ∈ 'n' :: '+' :: bs) : False := by
  have h : ' ' = 'n' ∨ ' ' = '+' ∨ ' ' ∈ bs := by simpa using hm
  rcases h with h | h | h
  · exact absurd h (by decide)
  · exact absurd h (by decide)
  · exact digit_ne ' ' (hdb ' ' h) ' ' (by decide) rfl

/-- C5 (amended): resolveNthOfType resolution table for a 0-indexed walk
position i, as the code computes it.  The claim is amended in one corner:
when both a and b are zero (in particular for the fixed parameter 0) the
last segment resolves to :nth-of-type(i+1), not to :nth-of-type(b); all
other rows of the claimed table hold: no pseudo resolves to i+1, odd to
2i+1, even to 2i+2 (which is 2 at i=0), an+b with a at least 2 to i*a+b
with b defaulting to a when absent, a of 0 or 1 (not both a and b zero)
to b, and a fixed N of at least 1 to N. -/
theorem c5_resolve_nth_of_type_table (i : Int) (pre as bs : List Char)
    (hpre : ∀ c ∈ pre, c ≠ ':' ∧ c ≠ ' ' ∧ c ≠ '\n')
    (hda : ∀ c ∈ as, c.isDigit = true) (hdb : ∀ c ∈ bs, c.isDigit = true) :
    (resolveNthOfType (String.mk pre) i
      = String.mk pre ++ ":nth-of-type(" ++ toString (i + 1) ++ ")")
    ∧ (resolveNthOfType (String.mk (pre ++ (nthOfTypeLit ++ (("odd").data ++ [')'])))) i
      = String.mk pre ++ ":nth-of-type(" ++ toString (2 * i + 1) ++ ")")
    ∧ (resolveNthOfType (String.mk (pre ++ (nthOfTypeLit ++ (("even").data ++ [')'])))) i
      = String.mk pre ++ ":nth-of-type(" ++ toString (2 * i + 2) ++ ")")
    ∧ (as ≠ [] → 2 ≤ atoiDigits as → bs ≠ [] → 1 ≤ atoiDigits bs →
      resolveNthOfType (String.mk (pre ++ (nthOfTypeLit ++ ((as ++ 'n' :: '+' :: bs) ++ [')'])))) i
        = String.mk pre ++ ":nth-of-type(" ++ toString (i * atoiDigits as + atoiDigits bs) ++ ")")
    ∧ (as ≠ [] → 2 ≤ atoiDigits as →
      resolveNthOfType (String.mk (pre ++ (nthOfTypeLit ++ ((as ++ ['n']) ++ [')'])))) i
        = String.mk pre ++ ":nth-of-type(" ++ toString (i * atoiDigits as + atoiDigits as) ++ ")")
    ∧ (as ≠ [] → (atoiDigits as = 0 ∨ atoiDigits as = 1) → bs ≠ [] →
        ¬(atoiDigits as = 0 ∧ atoiDigits bs = 0) →
      resolveNthOfType (String.mk (pre ++ (nthOfTypeLit ++ ((as ++ 'n' :: '+' :: bs) ++ [')'])))) i
        = String.mk pre ++ ":nth-of-type(" ++ toString (atoiDigits bs) ++ ")")
    ∧ (bs ≠ [] → 1 ≤ atoiDigits bs →
      resolveNthOfType (String.mk (pre ++ (nthOfTypeLit ++ (bs ++ [')'])))) i
        = String.mk pre ++ ":nth-of-type(" ++ toString (atoiDigits bs) ++ ")")
    ∧ (bs ≠ [] → atoiDigits bs = 0 →
      resolveNthOfType (String.mk (pre ++ (nthOfTypeLit ++ (bs ++ [')'])))) i
        = String.mk pre ++ ":nth-of-type(" ++ toString (i + 1) ++ ")") := by
  refine ⟨?_, ?_, ?_, ?_, ?_, ?_, ?_, ?_⟩
  · exact resolve_no_pseudo_eval pre hpre i
  · rw [resolve_pseudo_eval pre ("odd").data GoNthParam.odd hpre rfl
        (by decide) (by decide) i]
    have hx : xOf 2 1 i = 2 * i + 1 := by
      unfold xOf
      rw [if_neg (by omega), if_neg (by omega), if_neg (by omega)]
      omega
    rw [show paramA GoNthParam.odd = 2 from rfl,
        show paramB GoNthParam.odd = 1 from rfl, hx]
  · rw [resolve_pseudo_eval pre ("even").data GoNthParam.even hpre rfl
        (by decide) (by decide) i]
    have hx : xOf 2 0 i = 2 * i + 2 := by
      unfold xOf
      rw [if_neg (by omega), if_neg (by omega), if_pos (by omega)]
      omega
    rw [show paramA GoNthParam.even = 2 from rfl,
        show paramB GoNthParam.even = 0 from rfl, hx]
  · intro h1 h2 h3 h4
    have hmid : nthParamParse (as ++ 'n' :: '+' :: bs)
        = some (GoNthParam.anb (some as) (some bs)) := by
      rw [nthParamParse_anb as bs h1 hda hdb]
      simp [h3]
    rw [resolve_pseudo_eval pre (as ++ 'n' :: '+' :: bs)
        (GoNthParam.anb (some as) (some bs)) hpre hmid
        (fun hm => by
          rcases List.mem_append.mp hm with h5 | h6
          · exact digit_ne ':' (hda ':' h5) ':' (by decide) rfl
          · exact not_colon_mem_n_plus bs hdb h6)
        (fun hm => by
          rcases List.mem_append.mp hm with h5 | h6
          · exact digit_ne ' ' (hda ' ' h5) ' ' (by decide) rfl
          · exact not_space_mem_n_plus bs hdb h6) i]
    have hx : xOf (atoiDigits as) (atoiDigits bs) i
        = i * atoiDigits as + atoiDigits bs := by
      unfold xOf
      rw [if_neg (by omega), if_neg (by omega), if_neg (by omega)]
    rw [show paramA (GoNthParam.anb (some as) (some bs)) = atoiDigits as from rfl,
        show paramB (GoNthParam.anb (some as) (some bs)) = atoiDigits bs from rfl, hx]
  · intro h1 h2
    have hmid : nthParamParse (as ++ ['n'])
        = some (GoNthParam.anb (some as) none) := nthParamParse_an as h1 hda
    rw [resolve_pseudo_eval pre (as ++ ['n'])
        (GoNthParam.anb (some as) none) hpre hmid
        (fun hm => by
          rcases List.mem_append.mp hm with h5 | h6
          · exact digit_ne ':' (hda ':' h5) ':' (by decide) rfl
          · simp at h6)
        (fun hm => by
          rcases List.mem_append.mp hm with h5 | h6
          · exact digit_ne ' ' (hda ' ' h5) ' ' (by decide) rfl
          · simp at h6) i]
    have hx : xOf (atoiDigits as) 0 i = i * atoiDigits as + atoiDigits as := by
      unfold xOf
      rw [if_neg (by omega), if_neg (by omega), if_pos (by omega)]
    rw [show paramA (GoNthParam.anb (some as) none) = atoiDigits as from rfl,
        show paramB (GoNthParam.anb (some as) none) = 0 from rfl, hx]
  · intro h1 h2 h3 h4
    have hmid : nthParamParse (as ++ 'n' :: '+' :: bs)
        = some (GoNthParam.anb (some as) (some bs)) := by
      rw [nthParamParse_anb as bs h1 hda hdb]
      simp [h3]
    rw [resolve_pseudo_eval pre (as ++ 'n' :: '+' :: bs)
        (GoNthParam.anb (some as) (some bs)) hpre hmid
        (fun hm => by
          rcases List.mem_append.mp hm with h5 | h6
          · exact digit_ne ':' (hda ':' h5) ':' (by decide) rfl
          · exact not_colon_mem_n_plus bs hdb h6)
        (fun hm => by
          rcases List.mem_append.mp hm with h5 | h6
          · exact digit_ne ' ' (hda ' ' h5) ' ' (by decide) rfl
          · exact not_space_mem_n_plus bs hdb h6) i]
    have hx : xOf (atoiDigits as) (atoiDigits bs) i = atoiDigits bs := by
      unfold xOf
      rw [if_neg (by tauto), if_pos (by tauto)]
    rw [show paramA (GoNthParam.anb (some as) (some bs)) = atoiDigits as from rfl,
        show paramB (GoNthParam.anb (some as) (some bs)) = atoiDigits bs from rfl, hx]
  · intro h1 h2
    have hmid : nthParamParse bs = some (GoNthParam.anb none (some bs)) :=
      nthParamParse_fixed bs h1 hdb
    rw [resolve_pseudo_eval pre bs (GoNthParam.anb none (some bs)) hpre hmid
        (fun hm => digit_ne ':' (hdb ':' hm) ':' (by decide) rfl)
        (fun hm => digit_ne ' ' (hdb ' ' hm) ' ' (by decide) rfl) i]
    have hx : xOf 0 (atoiDigits bs) i = atoiDigits bs := by
      unfold xOf
      rw [if_neg (by omega), if_pos (by omega)]
    rw [show paramA (GoNthParam.anb none (some bs)) = 0 from rfl,
        show paramB (GoNthParam.anb none (some bs)) = atoiDigits bs from rfl, hx]
  · intro h1 h2
    have hmid : nthParamParse bs = some (GoNthParam.anb none (some bs)) :=
      nthParamParse_fixed bs h1 hdb
    rw [resolve_pseudo_eval pre bs (GoNthParam.anb none (some bs)) hpre hmid
        (fun hm => digit_ne ':' (hdb ':' hm) ':' (by decide) rfl)
        (fun hm => digit_ne ' ' (hdb ' ' hm) ' ' (by decide) rfl) i]
    have hx : xOf 0 (atoiDigits bs) i = i + 1 := by
      unfold xOf
      rw [if_pos (by omega)]
    rw [show paramA (GoNthParam.anb none (some bs)) = 0 from rfl,
        show paramB (GoNthParam.anb none (some bs)) = atoiDigits bs from rfl, hx]

/-- Witness for C5: the amended table applied at i = 1 to the concrete
selector div:nth-of-type(2n+3) (a = 2, b = 3) gives 1*2+3 = 5. -/
theorem c5_resolve_nth_of_type_table_witness :
    resolveNthOfType "div:nth-of-type(2n+3)" 1 = "div:nth-of-type(5)" := by
  have h := (c5_resolve_nth_of_type_table 1 ("div").data ("2").data ("3").data
      (by decide) (by decide) (by decide)).2.2.2.1
      (by decide) (by decide) (by decide) (by decide)
  have e1 : String.mk (("div").data
      ++ (nthOfTypeLit ++ ((("2").data ++ 'n' :: '+' :: ("3").data) ++ [')'])))
      = "div:nth-of-type(2n+3)" := rfl
  rw [e1] at h
  have e2 : String.mk ("div").data ++ ":nth-of-type("
      ++ toString ((1 : Int) * atoiDigits ("2").data + atoiDigits ("3").data) ++ ")"
      = "div:nth-of-type(5)" := by decide
  exact h.trans e2

/-- Counterexample for C5 as stated: the claim says a fixed
:nth-of-type(N) resolves to :nth-of-type(N), but for N = 0 (a = 0, b = 0
in the source) the code resolves to :nth-of-type(i+1): at walk position
1 the selector div:nth-of-type(0) resolves to div:nth-of-type(2). -/
theorem c5_fixed_zero_counterexample :
    resolveNthOfType "div:nth-of-type(0)" 1 = "div:nth-of-type(2)" ∧
    ¬ resolveNthOfType "div:nth-of-type(0)" 1 = "div:nth-of-type(0)" := by
  exact ⟨by decide, by decide⟩

/-- C6: evaluation of the sequence-walk selector rewrite at the selectors
the claim says are rejected or left unrewritten.  The source contains
only a TODO comment for this check: resolveNthOfType raises no error for
:nth-child / :nth-last-child / :nth-last-of-type and instead appends a
conflicting :nth-of-type pseudo, and it also appends one to
:first-child / :last-child selectors instead of leaving them alone. -/
theorem c6_forbidden_pseudo_not_rejected :
    resolveNthOfType "div:nth-child(2)" 0 = "div:nth-child(2):nth-of-type(1)" ∧
    resolveNthOfType "div:nth-last-child(2)" 0 = "div:nth-last-child(2):nth-of-type(1)" ∧
    resolveNthOfType "div:nth-last-of-type(2)" 0 = "div:nth-last-of-type(2):nth-of-type(1)" ∧
    resolveNthOfType "div:first-child" 0 = "div:first-child:nth-of-type(1)" ∧
    resolveNthOfType "div:last-child" 0 = "div:last-child:nth-of-type(1)" := by
  exact ⟨by decide, by decide, by decide, by decide, by decide⟩

/- ===================================================================
   Section 2: the reflective extractor (unmarshal.go / chrome_unmarshal.go)
     ExtractNumber, unmarshalValue, unmarshalValueOne, fillValue
   =================================================================== -/

/-- Greedy scan of a maximal run of characters satisfying p (the greedy
character-class pieces of the Go regexes). -/
def scanRun (p : Char → Bool) : List Char → List Char × List Char
  | [] => ([], [])
  | c :: rest =>
    if p c then
      let (ds, r) := scanRun p rest
      (c :: ds, r)
    else ([], c :: rest)

theorem scanRun_snd_le (p : Char → Bool) (cs : List Char) :
    (scanRun p cs).2.length ≤ cs.length := by
  induction cs with
  | nil => simp [scanRun]
  | cons c rest ih =>
    simp only [scanRun]
    by_cases h : p c
    · simp only [h, if_true]
      simpa using Nat.le_succ_of_le ih
    · simp [h]

theorem scanRun_snd_lt (p : Char → Bool) (cs : List Char)
    (h : (scanRun p cs).1 ≠ []) :
    (scanRun p cs).2.length < cs.length := by
  cases cs with
  | nil => simp [scanRun] at h
  | cons c rest =>
    by_cases hc : p c
    · simp only [scanRun, hc, if_true]
      have := scanRun_snd_le p rest
      simp only [List.length_cons]
      omega
    · simp [scanRun, hc] at h

/-- The character class [0-9,] of the ExtractNumber regex. -/
def isDigitOrComma (c : Char) : Bool := c.isDigit || c = ','

/-- One anchored attempt of the Go regex ` *([0-9,]+([.][0-9]*)?).*` at the
current position: greedy spaces, a nonempty digit-or-comma run, an
optional fraction, and a greedy `.*` that stops at a newline.  Returns the
first capture group and the unconsumed remainder; if the digit-or-comma
run is empty there is no match at this position. -/
def numMatchAt (cs : List Char) : Option (List Char × List Char) :=
  let sp := cs.dropWhile (fun c => c = ' ')
  let s1 := scanRun isDigitOrComma sp
  if s1.1 = [] then none
  else
    let fr : List Char × List Char :=
      if s1.2.head? = some '.' then
        ('.' :: (scanRun Char.isDigit s1.2.tail).1, (scanRun Char.isDigit s1.2.tail).2)
      else ([], s1.2)
    let tl := scanRun (fun c => c ≠ '\n') fr.2
    some (s1.1 ++ fr.1, tl.2)

theorem dropWhile_length_le (p : Char → Bool) (cs : List Char) :
    (cs.dropWhile p).length ≤ cs.length := by
  induction cs with
  | nil => simp
  | cons c rest ih =>
    by_cases h : p c
    · simp only [List.dropWhile_cons, h, if_true, List.length_cons]
      omega
    · simp [List.dropWhile_cons, h]

theorem numMatchAt_lt (cs r g1 : List Char) (h : numMatchAt cs = some (g1, r)) :
    r.length < cs.length := by
  unfold numMatchAt at h
  by_cases h0 : (scanRun isDigitOrComma (cs.dropWhile (fun c => c = ' '))).1 = []
  · simp only [h0, if_pos] at h
    exact absurd h (by simp)
  · simp only [h0, if_neg, ite_false, Option.some.injEq, Prod.mk.injEq] at h
    rcases h with ⟨hg, hr⟩
    subst hr
    set sp := cs.dropWhile (fun c => c = ' ') with hsp
    set s2 := (scanRun isDigitOrComma sp).2 with hs2
    have c1 : s2.length < sp.length := scanRun_snd_lt _ _ h0
    have c0 : sp.length ≤ cs.length := dropWhile_length_le _ _
    by_cases hdot : s2.head? = some '.'
    · simp only [hdot, if_pos]
      have c2 : (scanRun Char.isDigit s2.tail).2.length ≤ s2.tail.length :=
        scanRun_snd_le _ _
      have c3 : s2.tail.length ≤ s2.length := by
        cases s2 <;> simp
      have c4 : (scanRun (fun c => c ≠ '\n') (scanRun Char.isDigit s2.tail).2).2.length
          ≤ (scanRun Char.isDigit s2.tail).2.length := scanRun_snd_le _ _
      simp only [ne_eq] at c4 ⊢
      omega
    · simp only [hdot, if_neg, ite_false]
      have c4 : (scanRun (fun c => c ≠ '\n') s2).2.length ≤ s2.length :=
        scanRun_snd_le _ _
      simp only [ne_eq] at c4 ⊢
      omega

/-- The replace-all pass of ExtractNumber: every (leftmost,
non-overlapping) match of ` *([0-9,]+([.][0-9]*)?).*` is replaced by its
first capture group; unmatched characters are kept.  Structural recursion
on a fuel count that its caller fixes to the input length, which always
suffices because each step consumes at least one character (a match
consumes its nonempty digit run by numMatchAt_lt, a non-match emits one
character). -/
def numReplaceAllFuel : Nat → List Char → List Char
  | 0, _ => []
  | _ + 1, [] => []
  | f + 1, c :: rest =>
    match numMatchAt (c :: rest) with
    | some (g1, r) => g1 ++ numReplaceAllFuel f r
    | none => c :: numReplaceAllFuel f rest

def numReplaceAll (cs : List Char) : List Char :=
  numReplaceAllFuel cs.length cs

/-- Embedding of the Go helper stripchars (unmarshal.go): drop every
character that occurs in chr (strings.Map returning -1 for them). -/
def stripchars (str chr : List Char) : List Char :=
  str.filter (fun r => ¬ chr.contains r)

/-- The strip set of ExtractNumber: comma, no-break space U+00A0 and
ideographic space U+3000. -/
def stripSet : List Char := (", 　").data

/-- Model of Go strconv.ParseFloat on plain decimal input (optional sign,
decimal mantissa, optional decimal exponent), returning the exact decimal
value as a rational; hexadecimal floats, inf/nan spellings and digit-group
underscores are outside the fragment this code ever feeds it.  The Go
function additionally rounds to the nearest float64; every value a claim
mentions is exactly representable, so the rounding is the identity there. -/
def parseFloatExp (cs : List Char) : Option Int :=
  match cs with
  | [] => some 0
  | c :: r =>
    if c = 'e' ∨ c = 'E' then
      let (sign, r1) : Bool × List Char :=
        match r with
        | '-' :: rr => (true, rr)
        | '+' :: rr => (false, rr)
        | rr => (false, rr)
      let p := scanRun Char.isDigit r1
      if p.1 = [] ∨ p.2 ≠ [] then none
      else some (if sign then -(atoiDigits p.1) else atoiDigits p.1)
    else none

def parseFloatGo (cs : List Char) : Option ℚ :=
  let (neg, cs1) : Bool × List Char :=
    match cs with
    | '-' :: r => (true, r)
    | '+' :: r => (false, r)
    | r => (false, r)
  let ip := scanRun Char.isDigit cs1
  let frRest : Option (Int × Nat × List Char) :=
    match ip.2 with
    | '.' :: rr =>
      let fp := scanRun Char.isDigit rr
      if ip.1 = [] ∧ fp.1 = [] then none
      else some (atoiDigits ip.1 * (10 : Int) ^ fp.1.length + atoiDigits fp.1,
                 fp.1.length, fp.2)
    | other =>
      if ip.1 = [] then none else some (atoiDigits ip.1, 0, other)
  match frRest with
  | none => none
  | some (num0, k, rest) =>
    match parseFloatExp rest with
    | none => none
    | some e =>
      let num1 : Int := if neg then -num0 else num0
      if 0 ≤ e then some (mkRat (num1 * (10 : Int) ^ e.toNat) ((10 : Nat) ^ k))
      else some (mkRat num1 ((10 : Nat) ^ k * (10 : Nat) ^ (-e).toNat))

/-- Embedding of Go ExtractNumber (unmarshal.go): replace-all with the
first capture group, strip comma / U+00A0 / U+3000, ParseFloat. -/
def extractNumber (inp : List Char) : Option ℚ :=
  parseFloatGo (stripchars (numReplaceAll inp) stripSet)

example : extractNumber ("1,234.5 円").data = some (mkRat 2469 2) := by decide
example : extractNumber ("¥1,234").data = none := by decide
example : extractNumber ("3.14").data = some (mkRat 314 100) := by decide
example : extractNumber ("test").data = none := by decide

/-- The Unicode white space characters Go strings.TrimSpace removes
(unicode.IsSpace, restricted to Latin-1: tab through carriage return,
space, next-line U+0085 and no-break space U+00A0; the claims never use
the higher space code points). -/
def isGoSpace (c : Char) : Bool :=
  c = ' ' || c = '\t' || c = '\n' || c = Char.ofNat 11 || c = Char.ofNat 12 ||
  c = '\r' || c = Char.ofNat 133 || c = Char.ofNat 160

/-- Model of Go strings.TrimSpace. -/
def goTrimSpace (cs : List Char) : List Char :=
  (((cs.dropWhile isGoSpace).reverse).dropWhile isGoSpace).reverse

/-- Model of fmt.Sscanf(s, "%d", &i): skip white space, optional sign,
then a nonempty digit run; input left over after the digits is not an
error for Sscanf.  (Overflow of int64 is not modelled; no claim reaches
it.) -/
def goSscanfInt (cs : List Char) : Option Int :=
  let cs1 := cs.dropWhile isGoSpace
  match cs1 with
  | '-' :: rest =>
    let p := scanRun Char.isDigit rest
    if p.1 = [] then none else some (-(atoiDigits p.1))
  | '+' :: rest =>
    let p := scanRun Char.isDigit rest
    if p.1 = [] then none else some (atoiDigits p.1)
  | rest =>
    let p := scanRun Char.isDigit rest
    if p.1 = [] then none else some (atoiDigits p.1)

example : goSscanfInt ("123456").data = some 123456 := by decide
example : goSscanfInt ("-42").data = some (-42) := by decide
example : goSscanfInt ("abc").data = none := by decide

/-- The extractor error values the embedded fragment can produce, mirroring
the error taxonomy of unmarshal.go / chrome_unmarshal.go. -/
inductive UErrM where
  /-- UnmarshalParseNumberError{err, s}: carries the offending text s. -/
  | parseNumber (text : String) : UErrM
  /-- the bare strconv.ParseFloat error of the float branch (not wrapped);
  carries the string handed to ParseFloat. -/
  | parseFloatErr (text : String) : UErrM
  /-- regexp.Compile failure for the re tag. -/
  | reCompile (re : String) : UErrM
  /-- matched count of the regular expression is n, should be 0 or 1. -/
  | reCount (re : String) (n : Int) (text : String) : UErrM
  /-- length(L) != 1. -/
  | lengthNotOne (n : Nat) : UErrM
  /-- fmt.Errorf("#%d: %v", i, err) of the unmarshalValue slice loop. -/
  | indexed (i : Nat) (e : UErrM) : UErrM
  /-- fmt.Errorf("#%d: %w (sel:%#v)", i, err, sel) of the fillValue slice loop. -/
  | indexedSel (i : Nat) (sel : String) (e : UErrM) : UErrM
  /-- the time tag must be empty unless time.Time. -/
  | timeMustBeEmpty : UErrM
deriving DecidableEq

/-- An element of a goquery selection, reduced to what unmarshalValue reads
from it: its attributes, its concatenated text and its inner HTML.  goquery
itself is an external dependency; its Html() error path (which cannot fire
on a parsed document) is not modelled. -/
structure ElemM where
  attrs : List (String × String) := []
  text : String := ""
  htmlStr : String := ""
deriving DecidableEq

def ElemM.attr (e : ElemM) (k : String) : Option String :=
  (e.attrs.find? (fun p => p.1 = k)).map (fun p => p.2)

/-- UnmarshalOption (unmarshal.go); Loc is omitted because no embedded
branch reaches time parsing. -/
structure UnmarshalOptionM where
  attr : String := ""
  re : String := ""
  timeFmt : String := ""
  html : Bool := false
  ignore : String := ""
deriving DecidableEq

/-- A compiled Go regular expression, modelled by its FindStringSubmatch
contract: none when the expression does not match; otherwise the full
match followed by the text of each capture group (so for an expression
with k groups the list has length k+1). -/
structure GoRegex where
  find : String → Option (List String)

/-- The per-element selection loop of unmarshalValue (unmarshal.go): text
acquisition (inner HTML if the html option is set, else the attribute -
skipping elements without it -, else the text), then the re filter with
Go regexp semantics: n := len(FindStringSubmatch) - 1; n = -1 skips the
element, n different from 1 is an error, n = 1 substitutes the capture.
`rec` is the result of regexp.Compile(opt.re) (none = compile error). -/
def selectTexts (opt : UnmarshalOptionM) (rec : Option GoRegex) :
    List ElemM → Except UErrM (List (ElemM × String))
  | [] => Except.ok []
  | j :: rest =>
    let acquired : Option String :=
      if opt.html then some j.htmlStr
      else if opt.attr ≠ "" then j.attr opt.attr
      else some j.text
    match acquired with
    | none => selectTexts opt rec rest
    | some s =>
      if opt.re ≠ "" then
        match rec with
        | none => Except.error (UErrM.reCompile opt.re)
        | some re =>
          let submatch := re.find s
          let n : Int := (match submatch with
                          | none => (0 : Int)
                          | some l => (l.length : Int)) - 1
          if n = -1 then selectTexts opt rec rest
          else if n ≠ 1 then Except.error (UErrM.reCount opt.re n s)
          else
            let s2 := (match submatch with
                       | some l => (l.get? 1).getD ""
                       | none => "")
            (selectTexts opt rec rest).map (fun tl => (j, s2) :: tl)
      else
        (selectTexts opt rec rest).map (fun tl => (j, s) :: tl)

/-- unmarshalValueOne (unmarshal.go) specialised at an int destination:
the time tag must be empty, then trim space, strip commas, Sscanf %d;
failure is wrapped as UnmarshalParseNumberError carrying the original
text. -/
def unmarshalValueOneInt (s : String) (opt : UnmarshalOptionM) : Except UErrM Int :=
  if opt.timeFmt ≠ "" then Except.error UErrM.timeMustBeEmpty
  else
    match goSscanfInt ((goTrimSpace s.data).filter (fun c => c ≠ ',')) with
    | some i => Except.ok i
    | none => Except.error (UErrM.parseNumber s)

/-- unmarshalValueOne (unmarshal.go) specialised at a float64 destination:
ExtractNumber, whose strconv error is returned unwrapped. -/
def unmarshalValueOneFloat (s : String) (opt : UnmarshalOptionM) : Except UErrM ℚ :=
  if opt.timeFmt ≠ "" then Except.error UErrM.timeMustBeEmpty
  else
    match extractNumber s.data with
    | some f => Except.ok f
    | none =>
      Except.error (UErrM.parseFloatErr (String.mk (stripchars (numReplaceAll s.data) stripSet)))

/-- The slice branch of unmarshalValue (unmarshal.go) at element type int:
one unmarshalValueOne per selected pair, errors wrapped with the index.
Note: the ignore option is not consulted on this path. -/
def unmarshalIntSliceFill (opt : UnmarshalOptionM) (i : Nat) :
    List (ElemM × String) → Except UErrM (List Int)
  | [] => Except.ok []
  | p :: rest =>
    match unmarshalValueOneInt p.2 opt with
    | Except.error e => Except.error (UErrM.indexed i e)
    | Except.ok v => (unmarshalIntSliceFill opt (i + 1) rest).map (fun tl => v :: tl)

/-- unmarshalValue (unmarshal.go) at a []int destination. -/
def unmarshalIntSlice (opt : UnmarshalOptionM) (rec : Option GoRegex)
    (elems : List ElemM) : Except UErrM (List Int) :=
  (selectTexts opt rec elems).bind (fun selected => unmarshalIntSliceFill opt 0 selected)

/-- unmarshalValue (unmarshal.go) at a plain int destination: exactly one
selected pair required, then the ignore sentinel (zero value), then the
scalar parse. -/
def unmarshalIntSingle (opt : UnmarshalOptionM) (rec : Option GoRegex)
    (elems : List ElemM) : Except UErrM Int :=
  (selectTexts opt rec elems).bind (fun selected =>
    match selected with
    | [p] =>
      if opt.ignore ≠ "" ∧ p.2 = opt.ignore then Except.ok 0
      else unmarshalValueOneInt p.2 opt
    | _ => Except.error (UErrM.lengthNotOne selected.length))

/-- unmarshalValue (unmarshal.go) at a plain float64 destination. -/
def unmarshalFloatSingle (opt : UnmarshalOptionM) (rec : Option GoRegex)
    (elems : List ElemM) : Except UErrM ℚ :=
  (selectTexts opt rec elems).bind (fun selected =>
    match selected with
    | [p] =>
      if opt.ignore ≠ "" ∧ p.2 = opt.ignore then Except.ok 0
      else unmarshalValueOneFloat p.2 opt
    | _ => Except.error (UErrM.lengthNotOne selected.length))

/-- The scalar tail of fillValue (chrome_unmarshal.go) at an int value,
reached per element of a sequence walk with a singleton selected list:
first the ignore sentinel (zero value), then the time-tag check, then
the same trim / strip-comma / Sscanf parse as the HTTP extractor.  The
cssSelector argument mirrors the source signature (it is only used for
querying in the struct branch, which an int never reaches). -/
def fillIntOne (cssSelector : String) (s : String) (opt : UnmarshalOptionM) :
    Except UErrM Int :=
  if opt.ignore ≠ "" ∧ s = opt.ignore then Except.ok 0
  else if opt.timeFmt ≠ "" then Except.error UErrM.timeMustBeEmpty
  else
    match goSscanfInt ((goTrimSpace s.data).filter (fun c => c ≠ ',')) with
    | some i => Except.ok i
    | none => Except.error (UErrM.parseNumber s)

/-- The slice branch of fillValue (chrome_unmarshal.go) at element type
int: for each index the selector is rewritten with resolveNthOfType and
the singleton recursion runs; errors are wrapped with index and resolved
selector. -/
def fillIntSlice (cssSelector : String) (opt : UnmarshalOptionM) (i : Nat) :
    List String → Except UErrM (List Int)
  | [] => Except.ok []
  | s :: rest =>
    let sel := resolveNthOfType cssSelector (Int.ofNat i)
    match fillIntOne sel s opt with
    | Except.error e => Except.error (UErrM.indexedSel i sel e)
    | Except.ok v => (fillIntSlice cssSelector opt (i + 1) rest).map (fun tl => v :: tl)

/-- Decidable equality for Except results (not provided by the library for
arbitrary error types). -/
instance exceptDecEq {e a : Type} [DecidableEq e] [DecidableEq a] :
    DecidableEq (Except e a) := fun x y =>
  match x, y with
  | Except.error e1, Except.error e2 =>
    if h : e1 = e2 then Decidable.isTrue (by rw [h])
    else Decidable.isFalse (by intro hh; cases hh; exact h rfl)
  | Except.error _, Except.ok _ => Decidable.isFalse (by intro hh; cases hh)
  | Except.ok _, Except.error _ => Decidable.isFalse (by intro hh; cases hh)
  | Except.ok v1, Except.ok v2 =>
    if h : v1 = v2 then Decidable.isTrue (by rw [h])
    else Decidable.isFalse (by intro hh; cases hh; exact h rfl)

/-- C8: evaluation of the scalar number parsers at the claimed inputs.
The float destination on "1,234.5 円" gives 1234.5 and the int
destination on "123,456" gives 123456 as claimed, with int parse
failures wrapped as UnmarshalParseNumberError carrying the offending
text; but on "¥1,234" the float path fails instead of giving 1234:
ReplaceAllString keeps the unmatched prefix "¥", ParseFloat sees
"¥1234" and errors, contradicting the claim and the API documentation
examples shipped with the code. -/
theorem c8_number_parsers_eval :
    unmarshalFloatSingle {} none [{ text := "1,234.5 円" }] = Except.ok (mkRat 2469 2)
    ∧ unmarshalFloatSingle {} none [{ text := "¥1,234" }]
        = Except.error (UErrM.parseFloatErr "¥1234")
    ∧ unmarshalIntSingle {} none [{ text := "123,456" }] = Except.ok 123456
    ∧ unmarshalIntSingle {} none [{ text := "abc" }]
        = Except.error (UErrM.parseNumber "abc") := by
  exact ⟨by decide, by decide, by decide, by decide⟩

/-- Counterexample for C9: the HTTP-backend extractor (unmarshalValue in
unmarshal.go) does not consult the ignore sentinel on its slice path -
the sentinel check sits after the slice branch has already returned - so
the claimed scenario texts 1, 2, 3 with ignore "3" produce [1, 2, 3]
there, not [1, 2, 0]. -/
theorem c9_http_slice_counterexample :
    unmarshalIntSlice { ignore := "3" } none
      [{ text := "1" }, { text := "2" }, { text := "3" }] = Except.ok [1, 2, 3]
    ∧ ([1, 2, 3] : List Int) ≠ [1, 2, 0] := by
  exact ⟨by decide, by decide⟩

/-- C9 (amended): under the browser-backend extractor (fillValue in
chrome_unmarshal.go) the claimed scenario holds: the sequence walk over
the texts 1, 2, 3 of div#numbers div with ignore "3" yields [1, 2, 0],
and in general every element whose acquired text equals the (nonempty)
ignore sentinel is set to the int zero value instead of being parsed.
The HTTP-backend unmarshalValue applies ignore only on its
exactly-one-match path, so the same scenario yields [1, 2, 3] there. -/
theorem c9_ignore_sentinel_amended :
    fillIntSlice "div#numbers div" { ignore := "3" } 0 ["1", "2", "3"]
      = Except.ok [1, 2, 0]
    ∧ ∀ (sel s : String) (opt : UnmarshalOptionM),
        opt.ignore ≠ "" → s = opt.ignore → fillIntOne sel s opt = Except.ok 0 := by
  constructor
  · decide
  · intro sel s opt h1 h2
    unfold fillIntOne
    rw [if_pos ⟨h1, h2⟩]

/-- Witness for C9: the general sentinel clause applied at ignore = "x"
on text "x". -/
theorem c9_ignore_sentinel_amended_witness :
    fillIntOne "div" "x" { ignore := "x" } = Except.ok 0 :=
  c9_ignore_sentinel_amended.2 "div" "x" { ignore := "x" } (by decide) rfl

/-- Model of the compiled Go regex "abc" - an expression with zero capture
groups - shown at the input it is used on: it matches "xabcx" and its
FindStringSubmatch returns just the full match. -/
def reZeroGroups : GoRegex :=
  ⟨fun s => if s = "xabcx" then some ["abc"] else none⟩

/-- Counterexample for C7: with re = "abc" (a matching regular expression
with zero capture groups) on acquired text "xabcx", the element is not
skipped: unmarshalValue raises the matched-count error (n = 0), while the
claim says a match yielding zero capture groups is skipped without
error.  Only a non-match (FindStringSubmatch = nil) is skipped. -/
theorem c7_zero_capture_counterexample :
    selectTexts { re := "abc" } (some reZeroGroups) [{ text := "xabcx" }]
      = Except.error (UErrM.reCount "abc" 0 "xabcx") := by
  decide

/-- C7 (amended): the per-element re filter as the code implements it: if
the regex does not match the acquired text, the element is skipped with
no error; if it matches, the number of capture groups must be exactly
one, in which case the captured substring replaces the acquired text; a
match whose number of capture groups differs from one (zero included) is
an error. -/
theorem c7_regex_filter_amended (opt : UnmarshalOptionM) (re : GoRegex)
    (j : ElemM) (rest : List ElemM)
    (hre : opt.re ≠ "") (hhtml : opt.html = false) (hattr : opt.attr = "") :
    (re.find j.text = none →
      selectTexts opt (some re) (j :: rest) = selectTexts opt (some re) rest)
    ∧ (∀ m c, re.find j.text = some [m, c] →
      selectTexts opt (some re) (j :: rest)
        = (selectTexts opt (some re) rest).map (fun tl => (j, c) :: tl))
    ∧ (∀ l, re.find j.text = some l → l ≠ [] → l.length ≠ 2 →
      selectTexts opt (some re) (j :: rest)
        = Except.error (UErrM.reCount opt.re ((l.length : Int) - 1) j.text)) := by
  refine ⟨?_, ?_, ?_⟩
  · intro hfind
    rw [selectTexts]
    simp [hhtml, hattr, hre, hfind]
  · intro m c hfind
    rw [selectTexts]
    simp [hhtml, hattr, hre, hfind]
  · intro l hfind hne hlen
    have hn1 : ¬ ((l.length : Int) - 1 = -1) := by
      have : l.length ≠ 0 := fun h => hne (List.eq_nil_of_length_eq_zero h)
      omega
    have hn2 : ¬ ((l.length : Int) - 1 = 1) := by omega
    rw [selectTexts]
    simp [hhtml, hattr, hre, hfind, hn1, hn2]

/-- Witness for C7: the amended one-capture clause at the regex of the
repository test (matching dollar amounts) on the text $123US. -/
def reOneGroup : GoRegex :=
  ⟨fun s => if s = "$123US" then some ["$123", "123"] else none⟩

theorem c7_regex_filter_amended_witness :
    selectTexts { re := "[$]([0-9]+)" } (some reOneGroup) [{ text := "$123US" }]
      = Except.ok [({ text := "$123US" }, "123")] := by
  have h := (c7_regex_filter_amended { re := "[$]([0-9]+)" } reOneGroup
      { text := "$123US" } [] (by decide) rfl rfl).2.1 "$123" "123" rfl
  rw [h]
  rfl

/- ===================================================================
   Section 3: the Form model (form.go)
     Page.Form
   =================================================================== -/

/-- AvailableValue (form.go). -/
structure AvailableValueM where
  value : String := ""
  label : String := ""
deriving DecidableEq

/-- FormElement (form.go); `availableValues = none` models the Go nil
slice, which Set distinguishes from an empty one. -/
structure FormElementM where
  typ : String := ""
  name : String := ""
  value : Option AvailableValueM := none
  availableValues : Option (List AvailableValueM) := none
deriving DecidableEq

/-- FormElement.AddAvailableValue (form.go). -/
def FormElementM.addAvailableValue (e : FormElementM) (v : AvailableValueM) : FormElementM :=
  { e with availableValues := some ((e.availableValues.getD []) ++ [v]) }

/-- An input element of the scanned form, reduced to its attributes. -/
structure InputNodeM where
  attrs : List (String × String) := []
deriving DecidableEq

def InputNodeM.attr (e : InputNodeM) (k : String) : Option String :=
  (e.attrs.find? (fun p => p.1 = k)).map (fun p => p.2)

/-- An option element of a select, with its attributes and text. -/
structure OptionNodeM where
  attrs : List (String × String) := []
  text : String := ""
deriving DecidableEq

def OptionNodeM.attr (e : OptionNodeM) (k : String) : Option String :=
  (e.attrs.find? (fun p => p.1 = k)).map (fun p => p.2)

/-- A select element of the scanned form with its option descendants. -/
structure SelectNodeM where
  attrs : List (String × String) := []
  options : List OptionNodeM := []
deriving DecidableEq

def SelectNodeM.attr (e : SelectNodeM) (k : String) : Option String :=
  (e.attrs.find? (fun p => p.1 = k)).map (fun p => p.2)

/-- A form element as matched by the selector: its own attributes and its
input / select descendants in DOM order. -/
structure FormNodeM where
  attrs : List (String × String) := []
  inputs : List InputNodeM := []
  selects : List SelectNodeM := []
deriving DecidableEq

def FormNodeM.attr (e : FormNodeM) (k : String) : Option String :=
  (e.attrs.find? (fun p => p.1 = k)).map (fun p => p.2)

/-- A parsed page, reduced to the two goquery queries Page.Form makes of
it: the elements matching a selector, and the text of label[for=id] when
at least one such label exists (goquery itself is external). -/
structure PageM where
  find : String → List FormNodeM
  labelText : String → Option String

/-- The elements map of Form, as an insertion-ordered association list
(the Go map's iteration order plays no role in Page.Form). -/
def updateAssoc (m : List (String × FormElementM)) (k : String) (v : FormElementM) :
    List (String × FormElementM) :=
  match m with
  | [] => [(k, v)]
  | (k2, v2) :: rest => if k2 = k then (k, v) :: rest else (k2, v2) :: updateAssoc rest k v

def lookupAssoc (m : List (String × FormElementM)) (k : String) : Option FormElementM :=
  (m.find? (fun p => p.1 = k)).map (fun p => p.2)

/-- Model of Go strings.ToLower (ASCII case mapping suffices for the type
attribute values the switch compares against). -/
def goToLower (s : String) : String := String.mk (s.data.map Char.toLower)

/-- The id escaping of the label lookup: `.` to `\002e` and `:` to `\003a`. -/
def escapeId (id : String) : String :=
  String.mk (List.flatten (id.data.map (fun c =>
    if c = '.' then '\\' :: ("002e").data
    else if c = ':' then '\\' :: ("003a").data
    else [c])))

/-- The per-input step of the Page.Form scanning loop (form.go): inputs
without a name are ignored; the type defaults to text; a missing value
defaults to "on" for radios; the label is the text of label[for=id];
then the type switch fills Value / AvailableValues. -/
def processInput (page : PageM) (elements : List (String × FormElementM))
    (inp : InputNodeM) : List (String × FormElementM) :=
  match inp.attr "name" with
  | none => elements
  | some name =>
    let t := ((inp.attr "type").getD "text")
    let value :=
      match inp.attr "value" with
      | some v => v
      | none => if goToLower t = "radio" then "on" else ""
    let element :=
      match lookupAssoc elements name with
      | some e => e
      | none => { typ := t, name := name }
    let label :=
      match inp.attr "id" with
      | some id => (page.labelText (escapeId id)).getD ""
      | none => ""
    let val : AvailableValueM := { value := value, label := label }
    let element2 :=
      match goToLower t with
      | "submit" | "hidden" | "button" | "text" | "email" | "password" | "image" =>
        { element with value := some val }
      | "checkbox" =>
        { element with availableValues := some [val],
                       value := if (inp.attr "checked").isSome then some val else element.value }
      | "radio" =>
        let e2 := element.addAvailableValue val
        if (inp.attr "checked").isSome then { e2 with value := some val }
        else if e2.value = none then { e2 with value := some val }
        else e2
      | _ => element
    updateAssoc elements name element2

/-- The per-option step of the select loop: options without a value are
ignored; otherwise add to the available values, select on the selected
attribute, and default to the first value when none is selected yet. -/
def processOption (element : FormElementM) (o : OptionNodeM) : FormElementM :=
  match o.attr "value" with
  | none => element
  | some value =>
    let val : AvailableValueM := { value := value, label := o.text }
    let e2 := element.addAvailableValue val
    let e3 := if (o.attr "selected").isSome then { e2 with value := some val } else e2
    if e3.value = none then { e3 with value := some val } else e3

/-- The per-select step of the Page.Form scanning loop. -/
def processSelect (elements : List (String × FormElementM)) (s : SelectNodeM) :
    List (String × FormElementM) :=
  match s.attr "name" with
  | none => elements
  | some name =>
    let element :=
      match lookupAssoc elements name with
      | some e => e
      | none => { typ := "select", name := name }
    updateAssoc elements name (s.options.foldl processOption element)

/-- Form (form.go), reduced to the fields Page.Form computes (the url and
logger slots are carried through unchanged). -/
structure FormM where
  action : String
  method : String
  elements : List (String × FormElementM)
deriving DecidableEq

inductive FormError where
  /-- fmt.Errorf("selector=%v, found %v items. something went wrong"). -/
  | countMismatch (selector : String) (found : Nat) : FormError
deriving DecidableEq

/-- Embedding of Page.Form (form.go): the selector must match exactly one
element, otherwise the count error; then the inputs and selects of the
single match are scanned into the elements map, and action / method are
read off the form attributes (method defaulting to get). -/
def pageForm (page : PageM) (selector : String) : Except FormError FormM :=
  match page.find selector with
  | [f] =>
    let elements := f.inputs.foldl (processInput page) []
    let elements2 := f.selects.foldl processSelect elements
    Except.ok { action := (f.attr "action").getD "",
                method := (f.attr "method").getD "get",
                elements := elements2 }
  | other => Except.error (FormError.countMismatch selector other.length)

/-- C10: Page.Form returns a non-nil error whenever the number of elements
matching the selector differs from one (zero included), and a Form value
is constructed only when exactly one element matches. -/
theorem c10_page_form_count (page : PageM) (selector : String) :
    ((page.find selector).length ≠ 1 →
      pageForm page selector
        = Except.error (FormError.countMismatch selector (page.find selector).length))
    ∧ (∀ f, pageForm page selector = Except.ok f → (page.find selector).length = 1) := by
  constructor
  · intro h
    unfold pageForm
    cases hpf : page.find selector with
    | nil => simp [hpf]
    | cons a t =>
      cases t with
      | nil => rw [hpf] at h; simp at h
      | cons b t2 => simp [hpf]
  · intro f hf
    unfold pageForm at hf
    cases hpf : page.find selector with
    | nil => rw [hpf] at hf; simp at hf
    | cons a t =>
      cases t with
      | nil => simp
      | cons b t2 => rw [hpf] at hf; simp at hf

/-- A concrete page for the C10 witness: one form with a text input and a
submit button under selector form, nothing else. -/
def pageW : PageM :=
  { find := fun sel =>
      if sel = "form" then
        [{ attrs := [("action", "/submit"), ("method", "post")],
           inputs := [{ attrs := [("name", "user")] },
                      { attrs := [("type", "submit"), ("value", "go"), ("name", "ok")] }],
           selects := [] }]
      else [],
    labelText := fun _ => none }

/-- Witness for C10: on the concrete page, a selector matching zero
elements produces the count error. -/
theorem c10_page_form_count_witness :
    pageForm pageW "div" = Except.error (FormError.countMismatch "div" 0) := by
  have h := (c10_page_form_count pageW "div").1 (by decide)
  exact h

example : pageForm pageW "form"
    = Except.ok { action := "/submit", method := "post",
                  elements := [("user", { typ := "text", name := "user",
                                          value := some { value := "", label := "" } }),
                               ("ok", { typ := "submit", name := "ok",
                                        value := some { value := "go", label := "" } })] } := by
  decide

/- ===================================================================
   Section 4: the HTTP session (session.go) and browser session (chrome.go)
     Session.invoke, ChromeSession.SaveHtml, Session.submitUnified
   =================================================================== -/

def UserAgentDefault : String :=
  "Mozilla/5.0 (Windows NT 10.0; Win64; x64; rv:86.0) Gecko/20100101 Firefox/86.0"

def DefaultBlankURL : String := "about:blank"

/-- A net/http header map.  Keys are stored in their canonical MIME form
(net/http canonicalizes on every access, so the embedding uses the
canonical spellings directly); Header.Set replaces all values of a key. -/
structure HeaderM where
  entries : List (String × String) := []
deriving DecidableEq

def HeaderM.set (h : HeaderM) (k v : String) : HeaderM :=
  { entries := h.entries.filter (fun p => p.1 ≠ k) ++ [(k, v)] }

/-- Header.Get: the first value, or the empty string. -/
def HeaderM.get (h : HeaderM) (k : String) : String :=
  (((h.entries.find? (fun p => p.1 = k))).map (fun p => p.2)).getD ""

structure RequestM where
  method : String := "GET"
  url : String := ""
  header : HeaderM := {}
deriving DecidableEq

/-- PageMetadata (metadata.go). -/
structure PageMetadataM where
  url : String := ""
  contentType : String := ""
  title : String := ""
deriving DecidableEq

/-- The Response value invoke returns (response.go), reduced to the fields
the claims inspect: the (possibly substituted) request URL, the content
type, and the raw body. -/
structure ResponseM where
  requestUrl : String
  contentType : String
  rawBody : String
deriving DecidableEq

/-- The result of http.Client.Do: a transport error, or the final
post-redirect response (response.Request.URL, status code, Content-Type
header) whose body io.ReadAll then either yields or fails on. -/
inductive NetResult where
  | transportErr (msg : String) : NetResult
  | resp (finalUrl : String) (statusCode : Int) (contentType : String)
      (body : Except String String) : NetResult

/-- The environment of one invoke call: file system and network as
oracles.  metaRead combines the sidecar read and its JSON parse
(loadPageMetadata), either failure giving none. -/
structure EnvM where
  dirExists : Bool := true
  mkdirOk : Bool := true
  net : RequestM → NetResult := fun _ => NetResult.transportErr ""
  fileRead : String → Option String := fun _ => none
  writeOk : String → Bool := fun _ => true
  metaRead : String → Option PageMetadataM := fun _ => none

/-- Session (session.go), reduced to the fields the claims touch.  The
current page and the pages produced by responses are abstracted to
numeric tokens. -/
structure SessionM where
  name : String := ""
  userAgent : String := UserAgentDefault
  filePrefixDir : String := ""
  invokeCount : Int := 0
  notUseNetwork : Bool := false
  saveToFile : Bool := false
  currentPage : Option Nat := none
  pendingFormData : List (String × String) := []

def SessionM.getDirectory (s : SessionM) : String := s.filePrefixDir ++ s.name

/-- getHtmlFilename (session.go); path.Join is modelled as joining with a
slash (its Clean pass changes nothing on the names the session builds). -/
def SessionM.getHtmlFilename (s : SessionM) : String :=
  s.getDirectory ++ "/" ++ toString s.invokeCount ++ ".html"

/-- The artifact body filename the next command will consume. -/
def nextHtmlFilename (s : SessionM) : String :=
  SessionM.getHtmlFilename { s with invokeCount := s.invokeCount + 1 }

/-- The I/O steps a command performs, in order, each recording the
invocation counter at the moment it runs (none for the directory
bootstrap, which precedes the increment). -/
inductive IOEv where
  | statDir (dir : String) : IOEv
  | mkdirDir (dir : String) : IOEv
  | netSend (req : RequestM) (counter : Int) : IOEv
  | fileWrite (fn : String) (counter : Int) : IOEv
  | fileRead (fn : String) (counter : Int) : IOEv
  | metaWrite (fn : String) (counter : Int) : IOEv
  | metaRead (fn : String) (counter : Int) : IOEv
  | browserCmd (what : String) (counter : Int) : IOEv
deriving DecidableEq

def IOEv.counterOf : IOEv → Option Int
  | IOEv.statDir _ => none
  | IOEv.mkdirDir _ => none
  | IOEv.netSend _ c => some c
  | IOEv.fileWrite _ c => some c
  | IOEv.fileRead _ c => some c
  | IOEv.metaWrite _ c => some c
  | IOEv.metaRead _ c => some c
  | IOEv.browserCmd _ c => some c

inductive InvokeErr where
  | mkdirFailed (dir : String) : InvokeErr
  | requestError (url : String) (msg : String) : InvokeErr
  | responseError (url : String) (status : Int) : InvokeErr
  | readBodyFailed (msg : String) : InvokeErr
  | writeFileFailed (fn : String) : InvokeErr
  | retryAndRecord (filename : String) : InvokeErr
  | chromeErr (msg : String) : InvokeErr
  | tempFileFailed (fn : String) : InvokeErr
  | loadBrowserFailed (fn : String) : InvokeErr
deriving DecidableEq

/-- The default headers of the live branch of invoke (session.go): each of
the four is Set - replacing any value already present - with the
User-Agent taken from the session (library default when empty). -/
def applyDefaultHeaders (s : SessionM) (h : HeaderM) : HeaderM :=
  let userAgent := if s.userAgent = "" then UserAgentDefault else s.userAgent
  ((((h.set "User-Agent" userAgent).set
      "Accept" "text/html,application/xhtml+xml,application/xml;q=0.9,*/*;q=0.8").set
      "Upgrade-Insecure-Requests" "1").set "DNT" "1")

/-- Model of net/url Parse on the URL strings the session stores: parsing
fails only on ASCII control characters and round-trips otherwise (the
session only ever re-serializes the parsed value). -/
def goUrlParse (s : String) : Option String :=
  if s.data.any (fun c => c.toNat < 32 || c.toNat = 127) then none else some s

structure InvokeOut where
  state : SessionM
  trace : List IOEv
  result : Except InvokeErr ResponseM

/-- Embedding of Session.invoke (session.go): ensure the session
directory when persistence is on; increment the invocation counter and
derive the artifact filename from it; then either the live branch
(default headers, send, follow status, read body, optionally persist
body and sidecar) or the replay branch (read body and sidecar from the
artifact paths, substitute the saved URL into the request when it
parses, RetryAndRecord on any missing piece). -/
def SessionM.invoke (s : SessionM) (req : RequestM) (env : EnvM) : InvokeOut :=
  let dirname := s.getDirectory
  let ensure : Bool := s.notUseNetwork || s.saveToFile
  let ev0 : List IOEv :=
    if ensure then
      if env.dirExists then [IOEv.statDir dirname]
      else [IOEv.statDir dirname, IOEv.mkdirDir dirname]
    else []
  if ensure ∧ ¬env.dirExists ∧ ¬env.mkdirOk then
    { state := s, trace := ev0, result := Except.error (InvokeErr.mkdirFailed dirname) }
  else
    let s1 : SessionM := { s with invokeCount := s.invokeCount + 1 }
    let filename := s1.getHtmlFilename
    if ¬s.notUseNetwork then
      let req1 : RequestM := { req with header := applyDefaultHeaders s req.header }
      let ev1 := ev0 ++ [IOEv.netSend req1 s1.invokeCount]
      match env.net req1 with
      | NetResult.transportErr msg =>
        { state := s1, trace := ev1,
          result := Except.error (InvokeErr.requestError req1.url msg) }
      | NetResult.resp finalUrl status contentType bodyRes =>
        if Int.tdiv status 100 ≠ 2 then
          { state := s1, trace := ev1,
            result := Except.error (InvokeErr.responseError finalUrl status) }
        else
          match bodyRes with
          | Except.error msg =>
            { state := s1, trace := ev1,
              result := Except.error (InvokeErr.readBodyFailed msg) }
          | Except.ok body =>
            if s.saveToFile then
              let ev2 := ev1 ++ [IOEv.fileWrite filename s1.invokeCount]
              if ¬env.writeOk filename then
                { state := s1, trace := ev2,
                  result := Except.error (InvokeErr.writeFileFailed filename) }
              else
                let ev3 := ev2 ++ [IOEv.metaWrite filename s1.invokeCount]
                if ¬env.writeOk (filename ++ ".meta") then
                  { state := s1, trace := ev3,
                    result := Except.error (InvokeErr.writeFileFailed (filename ++ ".meta")) }
                else
                  { state := s1, trace := ev3,
                    result := Except.ok { requestUrl := finalUrl,
                                          contentType := contentType, rawBody := body } }
            else
              { state := s1, trace := ev1,
                result := Except.ok { requestUrl := finalUrl,
                                      contentType := contentType, rawBody := body } }
    else
      let ev1 := ev0 ++ [IOEv.fileRead filename s1.invokeCount]
      match env.fileRead filename with
      | none =>
        { state := s1, trace := ev1,
          result := Except.error (InvokeErr.retryAndRecord filename) }
      | some body =>
        let ev2 := ev1 ++ [IOEv.metaRead filename s1.invokeCount]
        match env.metaRead filename with
        | none =>
          { state := s1, trace := ev2,
            result := Except.error (InvokeErr.retryAndRecord filename) }
        | some md =>
          let requrl := match goUrlParse md.url with
                        | some u => u
                        | none => req.url
          { state := s1, trace := ev2,
            result := Except.ok { requestUrl := requrl,
                                  contentType := md.contentType, rawBody := body } }

/-- The chromedp / file-system oracles of one ChromeSession.SaveHtml call. -/
structure ChromeEnvM where
  fileRead : String → Option String := fun _ => none
  writeOk : String → Bool := fun _ => true
  metaRead : String → Option PageMetadataM := fun _ => none
  outerHtml : Except String String := Except.error ""
  navigateOk : Bool := true

structure ChromeOut where
  state : SessionM
  filenameOut : String
  trace : List IOEv
  result : Except InvokeErr Unit

/-- Embedding of ChromeSession.SaveHtml (chrome.go): increment the counter
first, expose the artifact filename, then in replay mode run
loadSavedHTMLToBrowser (body read - RetryAndRecord when missing -,
best-effort sidecar with about:blank fallback, temp file write, file://
navigation, best-effort URL script), and in record mode capture the outer
HTML, save it, then best-effort URL, title and sidecar writes whose
failures only warn. -/
def chromeSaveHtml (s : SessionM) (env : ChromeEnvM) : ChromeOut :=
  let s1 : SessionM := { s with invokeCount := s.invokeCount + 1 }
  let fn := s1.getHtmlFilename
  if s.notUseNetwork then
    let ev1 : List IOEv := [IOEv.fileRead fn s1.invokeCount]
    match env.fileRead fn with
    | none =>
      { state := s1, filenameOut := fn, trace := ev1,
        result := Except.error (InvokeErr.retryAndRecord fn) }
    | some _ =>
      let ev2 := ev1 ++ [IOEv.metaRead fn s1.invokeCount]
      let md := (env.metaRead fn).getD { url := DefaultBlankURL }
      let temp := fn ++ ".temp.html"
      let ev3 := ev2 ++ [IOEv.fileWrite temp s1.invokeCount]
      if ¬env.writeOk temp then
        { state := s1, filenameOut := fn, trace := ev3,
          result := Except.error (InvokeErr.tempFileFailed temp) }
      else
        let ev4 := ev3 ++ [IOEv.browserCmd "navigate-file" s1.invokeCount]
        if ¬env.navigateOk then
          { state := s1, filenameOut := fn, trace := ev4,
            result := Except.error (InvokeErr.loadBrowserFailed temp) }
        else
          let ev5 := ev4 ++ (if md.url ≠ "" ∧ md.url ≠ DefaultBlankURL then
              [IOEv.browserCmd "eval-set-url" s1.invokeCount] else [])
          { state := s1, filenameOut := fn, trace := ev5, result := Except.ok () }
  else
    let ev1 : List IOEv := [IOEv.browserCmd "outer-html" s1.invokeCount]
    match env.outerHtml with
    | Except.error msg =>
      { state := s1, filenameOut := fn, trace := ev1,
        result := Except.error (InvokeErr.chromeErr msg) }
    | Except.ok _ =>
      let ev2 := ev1 ++ [IOEv.fileWrite fn s1.invokeCount]
      if ¬env.writeOk fn then
        { state := s1, filenameOut := fn, trace := ev2,
          result := Except.error (InvokeErr.writeFileFailed fn) }
      else
        let ev3 := ev2 ++ [IOEv.browserCmd "eval-url" s1.invokeCount,
                           IOEv.browserCmd "title" s1.invokeCount,
                           IOEv.metaWrite fn s1.invokeCount]
        { state := s1, filenameOut := fn, trace := ev3, result := Except.ok () }

/-- The characters the name capture group of extractNameFromSelector may
not contain: double quote, single quote, closing bracket. -/
def isNameCore (c : Char) : Bool :=
  ¬ (c = Char.ofNat 34 ∨ c = Char.ofNat 39 ∨ c = ']')

def isQuote (c : Char) : Bool := c = Char.ofNat 34 ∨ c = Char.ofNat 39

/-- One anchored attempt of the Go regex of extractNameFromSelector
(the pattern matching bracketed name attributes with optional quotes):
the literal [name=, an optional quote, a nonempty run of characters that
are neither quotes nor a closing bracket, an optional quote, and the
closing bracket.  Only the maximal core run can succeed, so the
deterministic scan is faithful to the regex. -/
def nameMatchAt (cs : List Char) : Option (List Char) :=
  if cs.take 6 = ("[name=").data then
    let r0 := cs.drop 6
    let r1 := match r0 with
              | c :: rest => if isQuote c then rest else c :: rest
              | [] => []
    let p := scanRun isNameCore r1
    if p.1 = [] then none
    else
      let r2 := match p.2 with
                | c :: rest => if isQuote c then rest else c :: rest
                | [] => []
      match r2 with
      | ']' :: _ => some p.1
      | _ => none
  else none

/-- Leftmost match of the name pattern. -/
def extractNameList : List Char → Option (List Char)
  | [] => none
  | c :: rest =>
    match nameMatchAt (c :: rest) with
    | some g => some g
    | none => extractNameList rest

/-- Embedding of extractNameFromSelector (session.go): the capture group
of the first match, or the empty string. -/
def extractNameFromSelector (selector : String) : String :=
  match extractNameList selector.data with
  | some g => String.mk g
  | none => ""

example : extractNameFromSelector "input[name=username]" = "username" := by decide
example : extractNameFromSelector "[name=\"password\"]" = "password" := by decide
example : extractNameFromSelector "div.foo" = "" := by decide

/-- The FormAction / Response.Page collaborators of submitUnified, as
oracles over abstract page tokens. -/
structure SubmitEnvM where
  formAction : Nat → String → List (String × String) → Except String Nat :=
    fun _ _ _ => Except.ok 0
  respPage : Nat → Except String Nat := fun _ => Except.ok 0

/-- Embedding of Session.submitUnified (session.go): fail early when no
current page is loaded (the cleanup defer is installed only after this
check); otherwise take the pending form data when params is nil, convert
selector keys to field names, run FormAction and parse the response into
the new current page - clearing the pending map on every one of those
exits, success or failure. -/
def submitUnified (s : SessionM) (formSelector : String)
    (params : Option (List (String × String))) (env : SubmitEnvM) :
    SessionM × Except String Unit :=
  match s.currentPage with
  | none => (s, Except.error "session: no current page available for form submission")
  | some page =>
    let params2 := match params with
                   | none => s.pendingFormData
                   | some ps => ps
    let convertedParams := params2.foldl (fun acc kv =>
        let fieldName := extractNameFromSelector kv.1
        if fieldName ≠ "" then acc ++ [(fieldName, kv.2)]
        else acc ++ [(kv.1, kv.2)]) []
    let cleared : SessionM := { s with pendingFormData := [] }
    match env.formAction page formSelector convertedParams with
    | Except.error e => (cleared, Except.error e)
    | Except.ok resp =>
      match env.respPage resp with
      | Except.error e => (cleared, Except.error e)
      | Except.ok newPage =>
        ({ cleared with currentPage := some newPage }, Except.ok ())

/-- Every event of the trace that records a counter records n. -/
def counterOk (n : Int) (tr : List IOEv) : Prop :=
  ∀ ev ∈ tr, ∀ c, IOEv.counterOf ev = some c → c = n

theorem counterOk_nil (n : Int) : counterOk n [] := by
  intro ev hev
  simp at hev

theorem counterOk_append (n : Int) (a b : List IOEv)
    (ha : counterOk n a) (hb : counterOk n b) : counterOk n (a ++ b) := by
  intro ev hev
  rcases List.mem_append.mp hev with h | h
  · exact ha ev h
  · exact hb ev h

theorem counterOk_ev0 (s : SessionM) (env : EnvM) (n : Int) :
    counterOk n
      (if (s.notUseNetwork || s.saveToFile : Bool) then
        (if env.dirExists then [IOEv.statDir s.getDirectory]
         else [IOEv.statDir s.getDirectory, IOEv.mkdirDir s.getDirectory])
       else []) := by
  split
  · split
    · intro ev hev c hc
      simp at hev
      rw [hev] at hc
      simp [IOEv.counterOf] at hc
    · intro ev hev c hc
      simp only [List.mem_cons, List.not_mem_nil, or_false] at hev
      rcases hev with hev | hev <;> (rw [hev] at hc; simp [IOEv.counterOf] at hc)
  · exact counterOk_nil n

theorem counterOk_leaf (n : Int) (tr : List IOEv)
    (h : ∀ ev ∈ tr, ∀ c, IOEv.counterOf ev = some c → c = n) : counterOk n tr := h

/-- C1: every I/O-producing command increments the invocation counter
exactly once, before its network or file I/O: for Session.invoke (under
the precondition that the directory bootstrap of step 1 succeeds, which
precedes the increment) and for ChromeSession.SaveHtml
(unconditionally), the final counter is the initial one plus one whether
the I/O succeeds or fails, every I/O event of the command runs at that
incremented value, and SaveHtml exposes the artifact filename derived
from it. -/
theorem c1_counter_once (s : SessionM) (req : RequestM) (env : EnvM)
    (hdir : s.notUseNetwork = true ∨ s.saveToFile = true →
            env.dirExists = true ∨ env.mkdirOk = true) :
    ((SessionM.invoke s req env).state.invokeCount = s.invokeCount + 1
      ∧ counterOk (s.invokeCount + 1) (SessionM.invoke s req env).trace)
    ∧ ∀ (cs : SessionM) (cenv : ChromeEnvM),
        (chromeSaveHtml cs cenv).state.invokeCount = cs.invokeCount + 1
        ∧ (chromeSaveHtml cs cenv).filenameOut = nextHtmlFilename cs
        ∧ counterOk (cs.invokeCount + 1) (chromeSaveHtml cs cenv).trace := by
  have hmk : ¬((s.notUseNetwork || s.saveToFile : Bool) = true
      ∧ ¬env.dirExists = true ∧ ¬env.mkdirOk = true) := by
    intro hcond
    rcases hcond with ⟨h1, h2, h3⟩
    rcases hdir (by simpa [Bool.or_eq_true] using h1) with h | h
    · exact h2 h
    · exact h3 h
  refine ⟨⟨?_, ?_⟩, ?_⟩
  · unfold SessionM.invoke
    rw [if_neg hmk]
    dsimp only
    repeat' split
    all_goals rfl
  · unfold SessionM.invoke
    rw [if_neg hmk]
    dsimp only
    repeat' split
    all_goals
      (apply counterOk_leaf
       simp only [List.cons_append, List.nil_append, List.singleton_append,
                  List.append_assoc]
       intro ev hev
       fin_cases hev <;> (intro c hc; simp [IOEv.counterOf] at hc; try omega))
  · intro cs cenv
    refine ⟨?_, ?_, ?_⟩
    · unfold chromeSaveHtml
      dsimp only
      repeat' split
      all_goals rfl
    · unfold chromeSaveHtml nextHtmlFilename
      dsimp only
      repeat' split
      all_goals rfl
    · unfold chromeSaveHtml
      dsimp only
      repeat' split
      all_goals
        (apply counterOk_leaf
         simp only [List.cons_append, List.nil_append, List.singleton_append,
                    List.append_assoc]
         intro ev hev
         fin_cases hev <;> (intro c hc; simp [IOEv.counterOf] at hc; try omega))

/-- Witness for C1: invoke on a fresh session (counter 0) over the default
environment consumes counter value 1. -/
theorem c1_counter_once_witness :
    (SessionM.invoke {} {} {}).state.invokeCount = 0 + 1 :=
  ((c1_counter_once {} {} {} (by decide)).1).1

/-- C2: in replay mode invoke touches the network for nothing (no send
event exists in any trace), reads the body from the artifact file of the
incremented counter and the metadata sidecar, substitutes the saved URL
into the request handle when it parses, and returns them as the
Response; a missing body or sidecar fails with RetryAndRecordError
carrying the artifact filename. -/
theorem c2_replay_no_network (s : SessionM) (req : RequestM) (env : EnvM)
    (hreplay : s.notUseNetwork = true)
    (hdir : env.dirExists = true ∨ env.mkdirOk = true) :
    (∀ r c, IOEv.netSend r c ∉ (SessionM.invoke s req env).trace)
    ∧ (env.fileRead (nextHtmlFilename s) = none →
        (SessionM.invoke s req env).result
          = Except.error (InvokeErr.retryAndRecord (nextHtmlFilename s)))
    ∧ (∀ body, env.fileRead (nextHtmlFilename s) = some body →
        env.metaRead (nextHtmlFilename s) = none →
        (SessionM.invoke s req env).result
          = Except.error (InvokeErr.retryAndRecord (nextHtmlFilename s)))
    ∧ (∀ body md, env.fileRead (nextHtmlFilename s) = some body →
        env.metaRead (nextHtmlFilename s) = some md →
        (SessionM.invoke s req env).result
          = Except.ok { requestUrl := (goUrlParse md.url).getD req.url,
                        contentType := md.contentType, rawBody := body }) := by
  have hmk : ¬((s.notUseNetwork || s.saveToFile : Bool) = true
      ∧ ¬env.dirExists = true ∧ ¬env.mkdirOk = true) := by
    intro hcond
    rcases hcond with ⟨_, h2, h3⟩
    rcases hdir with h | h
    · exact h2 h
    · exact h3 h
  have hfn : SessionM.getHtmlFilename { s with invokeCount := s.invokeCount + 1 }
      = nextHtmlFilename s := rfl
  refine ⟨?_, ?_, ?_, ?_⟩
  · intro r c hmem
    rw [SessionM.invoke] at hmem
    rw [if_neg hmk] at hmem
    simp only [hreplay] at hmem
    try dsimp only at hmem
    revert hmem
    repeat' split
    all_goals intro hmem
    all_goals try exact absurd trivial (by assumption)
    all_goals
      (simp only [List.cons_append, List.nil_append, List.singleton_append] at hmem
       simp at hmem)
  · intro hnone
    rw [nextHtmlFilename] at hnone
    rw [SessionM.invoke, if_neg hmk]
    try dsimp only
    rw [if_neg (show ¬¬s.notUseNetwork = true from by simp [hreplay])]
    rw [hnone]
    rfl
  · intro body hbody hmeta
    rw [nextHtmlFilename] at hbody hmeta
    rw [SessionM.invoke, if_neg hmk]
    try dsimp only
    rw [if_neg (show ¬¬s.notUseNetwork = true from by simp [hreplay])]
    rw [hbody, hmeta]
    rfl
  · intro body md hbody hmeta
    rw [nextHtmlFilename] at hbody hmeta
    rw [SessionM.invoke, if_neg hmk]
    try dsimp only
    rw [if_neg (show ¬¬s.notUseNetwork = true from by simp [hreplay])]
    rw [hbody, hmeta]
    cases hurl : goUrlParse md.url <;> simp [hurl, Option.getD]

/-- The environment of the C2 witness: artifact and sidecar present for
every filename. -/
def envReplayW : EnvM :=
  { fileRead := fun _ => some "BODY",
    metaRead := fun _ => some { url := "http://a/b", contentType := "text/html" } }

/-- Witness for C2: replay invoke on a concrete recorded artifact yields
the saved body, content type and URL. -/
theorem c2_replay_no_network_witness :
    (SessionM.invoke { notUseNetwork := true } {} envReplayW).result
      = Except.ok { requestUrl := "http://a/b", contentType := "text/html",
                    rawBody := "BODY" } := by
  have h := (c2_replay_no_network { notUseNetwork := true } {} envReplayW rfl
      (Or.inl rfl)).2.2.2 "BODY" { url := "http://a/b", contentType := "text/html" }
      rfl rfl
  exact h.trans (by decide)

/-- A session that typed into a form field but never navigated: no current
page, one pending entry. -/
def sessNoPage : SessionM :=
  { currentPage := none, pendingFormData := [("input[name=user]", "alice")] }

/-- Counterexample for C3: a submission attempted with no current page
returns an error through submitUnified without clearing the pending
form-field map (the cleanup defer is installed only after the early
return), so the map is still nonempty afterwards. -/
theorem c3_pending_not_cleared_counterexample :
    (submitUnified sessNoPage "form" none {}).1.pendingFormData
      = [("input[name=user]", "alice")]
    ∧ (submitUnified sessNoPage "form" none {}).2
      = Except.error "session: no current page available for form submission"
    ∧ ([("input[name=user]", "alice")] : List (String × String)) ≠ [] := by
  refine ⟨rfl, rfl, by decide⟩

/-- C3 (amended): whenever a current page is loaded, submitUnified leaves
the pending form-field map empty on every exit - form resolution
failure, response page failure or success alike; only the early
no-current-page failure skips the cleanup. -/
theorem c3_pending_cleared_amended (s : SessionM) (formSelector : String)
    (params : Option (List (String × String))) (env : SubmitEnvM)
    (h : s.currentPage ≠ none) :
    (submitUnified s formSelector params env).1.pendingFormData = [] := by
  unfold submitUnified
  cases hp : s.currentPage with
  | none => exact absurd hp h
  | some page =>
    dsimp only
    repeat' split
    all_goals rfl

/-- Witness for C3: a successful submission on a loaded page leaves the
map empty. -/
def sessWithPage : SessionM :=
  { currentPage := some 0, pendingFormData := [("a", "b")] }

theorem c3_pending_cleared_amended_witness :
    (submitUnified sessWithPage "form" none {}).1.pendingFormData = [] :=
  c3_pending_cleared_amended sessWithPage "form" none {} (by decide)

theorem findFilteredAppendSame (k v : String) (l : List (String × String)) :
    List.find? (fun p => p.1 = k) ((l.filter (fun p => p.1 ≠ k)) ++ [(k, v)])
      = some (k, v) := by
  induction l with
  | nil => simp [List.find?]
  | cons p rest ih =>
    by_cases hp : p.1 = k
    · simpa [List.filter_cons, hp] using ih
    · simpa [List.filter_cons, hp, List.find?_cons] using ih

theorem findFilteredAppendOther (k v k2 : String) (hne : k2 ≠ k)
    (l : List (String × String)) :
    List.find? (fun p => p.1 = k2) ((l.filter (fun p => p.1 ≠ k)) ++ [(k, v)])
      = List.find? (fun p => p.1 = k2) l := by
  induction l with
  | nil => simp [List.find?, Ne.symm hne]
  | cons p rest ih =>
    by_cases hp : p.1 = k
    · have hp2 : ¬ p.1 = k2 := by rw [hp]; exact Ne.symm hne
      simpa [List.filter_cons, hp, List.find?_cons, hp2, hne, Ne.symm hne] using ih
    · by_cases hq : p.1 = k2
      · simp [List.filter_cons, hp, List.find?_cons, hq, hne, Ne.symm hne]
      · simpa [List.filter_cons, hp, List.find?_cons, hq, hne, Ne.symm hne] using ih

theorem headerGet_set_same (h : HeaderM) (k v : String) : (h.set k v).get k = v := by
  unfold HeaderM.set HeaderM.get
  rw [findFilteredAppendSame k v h.entries]
  rfl

theorem headerGet_set_other (h : HeaderM) (k v k2 : String) (hne : k2 ≠ k) :
    (h.set k v).get k2 = h.get k2 := by
  unfold HeaderM.set HeaderM.get
  rw [findFilteredAppendOther k v k2 hne h.entries]

/-- Counterexample data for C4: a session with a configured user agent and
a request that already carries a User-Agent header. -/
def sessUA : SessionM := { userAgent := "SessionAgent" }

def reqCustom : RequestM :=
  { url := "http://x", header := { entries := [("User-Agent", "custom")] } }

def envNet : EnvM :=
  { net := fun _ => NetResult.resp "http://x" 200 "text/html" (Except.ok "ok") }

/-- The request as it goes on the wire in the C4 counterexample: default
headers applied over the custom ones. -/
def reqSentW : RequestM :=
  { method := "GET", url := "http://x", header := applyDefaultHeaders sessUA reqCustom.header }

/-- Counterexample for C4: the default headers are applied with
Header.Set, which replaces existing values: the request above is sent
with User-Agent SessionAgent even though it already carried the header
with value custom, so a header already present is not left unchanged. -/
theorem c4_headers_counterexample :
    (applyDefaultHeaders sessUA reqCustom.header).get "User-Agent" = "SessionAgent"
    ∧ reqCustom.header.get "User-Agent" = "custom"
    ∧ (SessionM.invoke sessUA reqCustom envNet).trace = [IOEv.netSend reqSentW 1]
    ∧ ("SessionAgent" : String) ≠ "custom" := by
  refine ⟨by decide, rfl, by decide, by decide⟩

/-- C4 (amended): in live mode every request invoke sends carries the four
default headers unconditionally set - User-Agent from the session
(library default when it is empty), the Accept list,
Upgrade-Insecure-Requests 1 and DNT 1 - replacing any values those
headers already had, while all other headers are left unchanged. -/
theorem c4_default_headers_amended (s : SessionM) (req : RequestM) (env : EnvM) :
    (applyDefaultHeaders s req.header).get "User-Agent"
        = (if s.userAgent = "" then UserAgentDefault else s.userAgent)
    ∧ (applyDefaultHeaders s req.header).get "Accept"
        = "text/html,application/xhtml+xml,application/xml;q=0.9,*/*;q=0.8"
    ∧ (applyDefaultHeaders s req.header).get "Upgrade-Insecure-Requests" = "1"
    ∧ (applyDefaultHeaders s req.header).get "DNT" = "1"
    ∧ (∀ k, k ≠ "User-Agent" → k ≠ "Accept" → k ≠ "Upgrade-Insecure-Requests" →
        k ≠ "DNT" → (applyDefaultHeaders s req.header).get k = req.header.get k)
    ∧ (∀ r c, IOEv.netSend r c ∈ (SessionM.invoke s req env).trace →
        r = { req with header := applyDefaultHeaders s req.header }) := by
  refine ⟨?_, ?_, ?_, ?_, ?_, ?_⟩
  · unfold applyDefaultHeaders
    rw [headerGet_set_other _ _ _ _ (by decide), headerGet_set_other _ _ _ _ (by decide),
        headerGet_set_other _ _ _ _ (by decide), headerGet_set_same]
  · unfold applyDefaultHeaders
    rw [headerGet_set_other _ _ _ _ (by decide), headerGet_set_other _ _ _ _ (by decide),
        headerGet_set_same]
  · unfold applyDefaultHeaders
    rw [headerGet_set_other _ _ _ _ (by decide), headerGet_set_same]
  · unfold applyDefaultHeaders
    rw [headerGet_set_same]
  · intro k h1 h2 h3 h4
    unfold applyDefaultHeaders
    rw [headerGet_set_other _ _ _ _ h4, headerGet_set_other _ _ _ _ h3,
        headerGet_set_other _ _ _ _ h2, headerGet_set_other _ _ _ _ h1]
  · intro r c hmem
    rw [SessionM.invoke] at hmem
    try dsimp only at hmem
    revert hmem
    repeat' split
    all_goals intro hmem
    all_goals try (simp at hmem)
    all_goals try exact hmem.1

/-- Witness for the amended C4 law at a concrete session, request and
environment: DNT is forced to 1 on the wire header set, and a header the
defaults never touch (Cookie) keeps the value the request carried. -/
theorem c4_default_headers_amended_witness :
    (applyDefaultHeaders sessUA reqCustom.header).get "DNT" = "1"
    ∧ (applyDefaultHeaders sessUA reqCustom.header).get "Cookie"
        = reqCustom.header.get "Cookie" :=
  ⟨(c4_default_headers_amended sessUA reqCustom envNet).2.2.2.1,
   (c4_default_headers_amended sessUA reqCustom envNet).2.2.2.2.1 "Cookie"
     (by decide) (by decide) (by decide) (by decide)⟩
